import Mathlib

/-!
Shallow embedding of the vAttention CUDA paging core
(src/vattention/cudaInternal.h) and proofs about it.

The source is a thin layer over the CUDA driver virtual-memory API.  We
model the driver as an abstract `Backend` whose calls return result
codes (0 is CUDA_SUCCESS); every backend call that the code issues is
recorded as an `Event` in an emitted trace, in program order.  Fatal
`exit(1)` paths are modelled as `Except.error` results carrying a
`Diag` value that identifies which check or call failed; the trace
component of such a result holds exactly the backend calls issued
before the exit.
-/

namespace VAttention

/-- CUDA driver result code; 0 is CUDA_SUCCESS. -/
abbrev CUresult := Nat

def CUDA_SUCCESS : CUresult := 0

def CU_MEM_LOCATION_TYPE_DEVICE : Nat := 1

def CU_MEM_ACCESS_FLAGS_PROT_READWRITE : Nat := 3

def CU_MEM_ALLOCATION_TYPE_PINNED : Nat := 1

/-- Embeds CUmemAccessDesc: location type, access flags, device id. -/
structure AccessDesc where
  locType : Nat
  flags : Nat
  locId : Int
deriving DecidableEq

/-- Embeds CUmemAllocationProp: allocation type, location type, device id. -/
structure AllocProp where
  allocType : Nat
  locType : Nat
  locId : Int
deriving DecidableEq

/-- Kinds of warning messages Teardown can print while continuing. -/
inductive WarnKind where
  | unmapEntry
  | freeK (i : Nat)
  | freeV (i : Nat)
  | releasePage (i : Nat)
deriving DecidableEq

/-- One backend (CUDA driver) call issued by the code, or a warning line. -/
inductive Event where
  | memMap (addr size handle : Nat)
  | setAccess (addr size : Nat)
  | unmap (addr size : Nat)
  | addressFree (addr size : Nat)
  | releaseHandle (handle : Nat)
  | create (size : Nat)
  | warn (w : WarnKind)
deriving DecidableEq

def Event.isWarn : Event → Bool
  | Event.warn _ => true
  | _ => false

/-- Abstract CUDA driver: result codes for each call the code makes.
`memCreate n` is the handle returned by the n-th cuMemCreate (counted
by current pool size), `none` meaning the call fails. -/
structure Backend where
  memMapRes : Nat → Nat → Nat → CUresult
  setAccessRes : Nat → Nat → CUresult
  unmapRes : Nat → Nat → CUresult
  addressFreeRes : Nat → Nat → CUresult
  releaseRes : Nat → CUresult
  memCreate : Nat → Option Nat
  granularity : Int → Nat
  hasCtx : Bool
  cuInitRes : CUresult
  ctxRes : CUresult
  granRes : CUresult

/-- Key of cuda_pagemap, in the tuple order of the source:
std::make_tuple(reqId, req_offset, layer_idx). -/
abbrev MapKey := Int × Nat × Int

abbrev PagePair := Nat × Nat

/-- Process-wide mutable state touched by the core (utils.h globals):
access descriptor, page size, physical page pool, mapping table, the
per-layer key/value tensor base pointers, and the virtual buffer size. -/
structure CudaState where
  accessDesc : AccessDesc
  page_size : Nat
  cuda_pages : List Nat
  cuda_pagemap : List (MapKey × PagePair)
  k_tensors : List Nat
  v_tensors : List Nat
  virt_buff_size : Nat
deriving DecidableEq

/-- Lookup in the mapping table (std::map::find on the tuple key). -/
def pmLookup (m : List (MapKey × PagePair)) (k : MapKey) : Option PagePair :=
  match m with
  | [] => none
  | (k0, v0) :: rest => if k0 = k then some v0 else pmLookup rest k

/-- Which check or backend call made map_cuda_pages exit(1). -/
inductive Diag where
  | misalignedOffset
  | invalidHandle
  | invalidVirtualPtr
  | accessDescNotInit
  | memMapKFailed
  | memMapVFailed
  | setAccessKFailed
  | setAccessVFailed
deriving DecidableEq

/-- Embeds map_cuda_pages (cudaInternal.h lines 85-151).  The whole body
runs under std::lock_guard on memory_mapping_mutex; here it is a single
atomic state transformer.  Check order follows the source exactly:
alignment, handle validity, pointer validity, access-descriptor
validity, duplicate-key check (early ok return), then cuMemMap for k,
cuMemMap for v, cuMemSetAccess for k, cuMemSetAccess for v, and finally
the table insert. -/
def map_cuda_pages (B : Backend) (st : CudaState)
    (reqId : Int) (layer_idx : Int) (req_offset : Nat)
    (kcache_ptr vcache_ptr : Nat) (k_page v_page : Nat) :
    Except Diag Unit × CudaState × List Event :=
  if req_offset % st.page_size ≠ 0 then
    (Except.error Diag.misalignedOffset, st, [])
  else if k_page = 0 ∨ v_page = 0 then
    (Except.error Diag.invalidHandle, st, [])
  else if kcache_ptr = 0 ∨ vcache_ptr = 0 then
    (Except.error Diag.invalidVirtualPtr, st, [])
  else if st.accessDesc.locType ≠ CU_MEM_LOCATION_TYPE_DEVICE ∨
          st.accessDesc.flags ≠ CU_MEM_ACCESS_FLAGS_PROT_READWRITE then
    (Except.error Diag.accessDescNotInit, st, [])
  else if (pmLookup st.cuda_pagemap (reqId, req_offset, layer_idx)).isSome then
    (Except.ok (), st, [])
  else
    let kAddr := kcache_ptr + req_offset
    let vAddr := vcache_ptr + req_offset
    let e1 := Event.memMap kAddr st.page_size k_page
    if B.memMapRes kAddr st.page_size k_page ≠ CUDA_SUCCESS then
      (Except.error Diag.memMapKFailed, st, [e1])
    else
      let e2 := Event.memMap vAddr st.page_size v_page
      if B.memMapRes vAddr st.page_size v_page ≠ CUDA_SUCCESS then
        (Except.error Diag.memMapVFailed, st, [e1, e2])
      else
        let e3 := Event.setAccess kAddr st.page_size
        if B.setAccessRes kAddr st.page_size ≠ CUDA_SUCCESS then
          (Except.error Diag.setAccessKFailed, st, [e1, e2, e3])
        else
          let e4 := Event.setAccess vAddr st.page_size
          if B.setAccessRes vAddr st.page_size ≠ CUDA_SUCCESS then
            (Except.error Diag.setAccessVFailed, st, [e1, e2, e3, e4])
          else
            (Except.ok (),
             { st with cuda_pagemap :=
                 ((reqId, req_offset, layer_idx), (k_page, v_page)) :: st.cuda_pagemap },
             [e1, e2, e3, e4])

/-- Ways do_cuda_default_init can exit(1). -/
inductive InitErr where
  | cuInitFailed
  | ctxQueryFailed
  | noContext
  | granQueryFailed
  | granMismatch (expected got : Nat)
deriving DecidableEq

/-- Embeds do_cuda_default_init (cudaInternal.h lines 15-50): cuInit,
context check, zero-and-fill of prop and accessDesc, granularity query,
and the fatal mismatch check against page_size. -/
def do_cuda_default_init (B : Backend) (device : Int) (page_size : Nat) :
    Except InitErr (Nat × AllocProp × AccessDesc) :=
  if B.cuInitRes ≠ CUDA_SUCCESS then Except.error InitErr.cuInitFailed
  else if B.ctxRes ≠ CUDA_SUCCESS then Except.error InitErr.ctxQueryFailed
  else if ¬ B.hasCtx then Except.error InitErr.noContext
  else
    let prop : AllocProp :=
      { allocType := CU_MEM_ALLOCATION_TYPE_PINNED,
        locType := CU_MEM_LOCATION_TYPE_DEVICE, locId := device }
    let accessDesc : AccessDesc :=
      { locType := CU_MEM_LOCATION_TYPE_DEVICE,
        flags := CU_MEM_ACCESS_FLAGS_PROT_READWRITE, locId := device }
    if B.granRes ≠ CUDA_SUCCESS then Except.error InitErr.granQueryFailed
    else
      let phys_granularity := B.granularity device
      if phys_granularity ≠ page_size then
        Except.error (InitErr.granMismatch page_size phys_granularity)
      else Except.ok (phys_granularity, prop, accessDesc)

/-- Embeds the while loop of reserve_cuda_pages: create a page handle
(cuMemCreate, fatal on failure via CHECK_CUDA) and push it, while the
pool is smaller than the target. -/
def growPages (B : Backend) (page_size : Nat) (pages : List Nat) (target : Nat) :
    Except Unit (List Nat) × List Event :=
  if _h : pages.length < target then
    match B.memCreate pages.length with
    | none => (Except.error (), [Event.create page_size])
    | some hnd =>
      let r := growPages B page_size (pages ++ [hnd]) target
      (r.1, Event.create page_size :: r.2)
  else (Except.ok pages, [])
termination_by target - pages.length
decreasing_by simp [List.length_append]; omega

/-- Embeds reserve_cuda_pages (cudaInternal.h lines 60-74).  The sizing
function get_num_phys_blocks is an external collaborator and is passed
in as a parameter. -/
def reserve_cuda_pages (B : Backend) (sizing : Nat → Nat → Nat → Nat)
    (st : CudaState) (num_layers free_memory : Nat) :
    Except Unit (Nat × CudaState) × List Event :=
  let num_phys_blocks := sizing num_layers free_memory st.page_size
  match growPages B st.page_size st.cuda_pages num_phys_blocks with
  | (Except.error e, tr) => (Except.error e, tr)
  | (Except.ok pages, tr) =>
    (Except.ok (pages.length, { st with cuda_pages := pages }), tr)

/-- Events of Teardown's unmap phase for one mapping entry
(cudaInternal.h lines 155-175).  The source compares the int layer_idx
with the unsigned k_tensors.size(): a negative layer_idx converts to a
huge unsigned value, so it fails the bound check and is skipped exactly
like an out-of-range one; we render that as 0 ≤ layer_idx ∧
layer_idx.toNat < length.  If either resolved base pointer is 0 the
entry is skipped silently.  Both unmaps are issued before the combined
failure check, which prints a single warning. -/
def unmapEntryEvents (B : Backend) (st : CudaState) (m : MapKey × PagePair) : List Event :=
  let req_offset := m.1.2.1
  let layer_idx := m.1.2.2
  if 0 ≤ layer_idx ∧ layer_idx.toNat < st.k_tensors.length then
    let kcache_ptr := st.k_tensors.getD layer_idx.toNat 0
    let vcache_ptr := st.v_tensors.getD layer_idx.toNat 0
    if kcache_ptr ≠ 0 ∧ vcache_ptr ≠ 0 then
      [Event.unmap (kcache_ptr + req_offset) st.page_size,
       Event.unmap (vcache_ptr + req_offset) st.page_size] ++
      (if B.unmapRes (kcache_ptr + req_offset) st.page_size ≠ CUDA_SUCCESS ∨
          B.unmapRes (vcache_ptr + req_offset) st.page_size ≠ CUDA_SUCCESS then
        [Event.warn WarnKind.unmapEntry]
      else [])
    else []
  else []

/-- Events of Teardown's virtual-range free phase for one layer index
(cudaInternal.h lines 179-196): cuMemAddressFree on the key pointer if
non-null (warn on failure), then the same for the value pointer. -/
def freeLayerEvents (B : Backend) (st : CudaState) (i : Nat) : List Event :=
  let k_ptr := st.k_tensors.getD i 0
  let v_ptr := st.v_tensors.getD i 0
  (if k_ptr ≠ 0 then
    Event.addressFree k_ptr st.virt_buff_size ::
      (if B.addressFreeRes k_ptr st.virt_buff_size ≠ CUDA_SUCCESS then
        [Event.warn (WarnKind.freeK i)]
      else [])
  else []) ++
  (if v_ptr ≠ 0 then
    Event.addressFree v_ptr st.virt_buff_size ::
      (if B.addressFreeRes v_ptr st.virt_buff_size ≠ CUDA_SUCCESS then
        [Event.warn (WarnKind.freeV i)]
      else [])
  else [])

/-- Events of Teardown's handle release phase for the i-th pooled
handle (cudaInternal.h lines 199-207): cuMemRelease, warn on failure. -/
def releasePageEvents (B : Backend) (i : Nat) (hnd : Nat) : List Event :=
  Event.releaseHandle hnd ::
    (if B.releaseRes hnd ≠ CUDA_SUCCESS then [Event.warn (WarnKind.releasePage i)] else [])

/-- Embeds do_cuda_kvcache_cleanup (cudaInternal.h lines 153-208):
sweep the whole mapping table unmapping entries, then clear the table,
then free each layer's two virtual ranges, then release every pooled
physical handle.  Every failure inside the phases only warns; the
function always returns. -/
def do_cuda_kvcache_cleanup (B : Backend) (st : CudaState) : CudaState × List Event :=
  let phase1 := st.cuda_pagemap.flatMap (unmapEntryEvents B st)
  let phase2 := (List.range st.k_tensors.length).flatMap (freeLayerEvents B st)
  let phase3 := st.cuda_pages.enum.flatMap (fun p => releasePageEvents B p.1 p.2)
  ({ st with cuda_pagemap := [] }, phase1 ++ phase2 ++ phase3)

/-- Conjunction of the four precondition checks of map_cuda_pages, in
terms of the state the call runs against. -/
abbrev validArgs (st : CudaState) (req_offset kcache_ptr vcache_ptr k_page v_page : Nat) : Prop :=
  req_offset % st.page_size = 0 ∧ k_page ≠ 0 ∧ v_page ≠ 0 ∧
  kcache_ptr ≠ 0 ∧ vcache_ptr ≠ 0 ∧
  st.accessDesc.locType = CU_MEM_LOCATION_TYPE_DEVICE ∧
  st.accessDesc.flags = CU_MEM_ACCESS_FLAGS_PROT_READWRITE

/-- One pending map_cuda_pages call, for reasoning about sequences of
calls serialized by memory_mapping_mutex. -/
structure MapCall where
  reqId : Int
  layer_idx : Int
  req_offset : Nat
  kcache_ptr : Nat
  vcache_ptr : Nat
  k_page : Nat
  v_page : Nat
deriving DecidableEq

def callKey (c : MapCall) : MapKey := (c.reqId, c.req_offset, c.layer_idx)

def entryOf (c : MapCall) : MapKey × PagePair := (callKey c, (c.k_page, c.v_page))

/-- Run a sequence of map_cuda_pages calls in order.  Because the
entire body of map_cuda_pages holds memory_mapping_mutex, a concurrent
execution of N calls is observationally one of the N! serial orders;
this function executes one such order.  A fatal call stops the run. -/
def runCalls (B : Backend) (st : CudaState) : List MapCall → Except Diag Unit × CudaState × List Event
  | [] => (Except.ok (), st, [])
  | c :: cs =>
    match map_cuda_pages B st c.reqId c.layer_idx c.req_offset
        c.kcache_ptr c.vcache_ptr c.k_page c.v_page with
    | (Except.error d, st1, tr) => (Except.error d, st1, tr)
    | (Except.ok _, st1, tr) =>
      let r := runCalls B st1 cs
      (r.1, r.2.1, tr ++ r.2.2)

/-- Backend whose bind and permission-grant calls always succeed. -/
abbrev bindsAlwaysSucceed (B : Backend) : Prop :=
  (∀ a s hnd, B.memMapRes a s hnd = CUDA_SUCCESS) ∧
  (∀ a s, B.setAccessRes a s = CUDA_SUCCESS)

/-! Concrete backend and states used to instantiate the theorems. -/

/-- Backend on which every driver call succeeds; cuMemCreate hands out
distinct handles 100, 101, ... and granularity is 4096. -/
def Bok : Backend :=
  { memMapRes := fun _ _ _ => 0, setAccessRes := fun _ _ => 0,
    unmapRes := fun _ _ => 0, addressFreeRes := fun _ _ => 0,
    releaseRes := fun _ => 0, memCreate := fun n => some (n + 100),
    granularity := fun _ => 4096, hasCtx := true,
    cuInitRes := 0, ctxRes := 0, granRes := 0 }

def descOk : AccessDesc := { locType := 1, flags := 3, locId := 0 }

/-- Session state after a successful init: page size 4096, one pooled
handle, one layer whose key/value tensors sit at 4096 and 8192. -/
def stEx : CudaState :=
  { accessDesc := descOk, page_size := 4096, cuda_pages := [100],
    cuda_pagemap := [], k_tensors := [4096], v_tensors := [8192],
    virt_buff_size := 65536 }

/-- stEx with the key (7, 0, 0) already recorded. -/
def stMapped : CudaState :=
  { stEx with cuda_pagemap := [((7, 0, 0), (11, 22))] }

/-! Theorems for the claims. -/

/-- C5: after do_cuda_default_init succeeds, the granularity it returns
equals the configured page_size; a mismatch takes the fatal branch, so
no success value can carry a different granularity. -/
theorem init_granularity_eq_page_size (B : Backend) (device : Int)
    (page_size g : Nat) (prop : AllocProp) (acc : AccessDesc)
    (h : do_cuda_default_init B device page_size = Except.ok (g, prop, acc)) :
    g = page_size := by
  unfold do_cuda_default_init at h
  split at h
  · exact absurd h (by simp)
  · split at h
    · exact absurd h (by simp)
    · split at h
      · exact absurd h (by simp)
      · split at h
        · exact absurd h (by simp)
        · dsimp only at h
          split at h
          · exact absurd h (by simp)
          · rename_i hne
            push_neg at hne
            simp only [Except.ok.injEq, Prod.mk.injEq] at h
            omega

/-- Witness for C5 at a concrete backend and page size. -/
theorem init_granularity_eq_page_size_witness : (4096 : Nat) = 4096 :=
  init_granularity_eq_page_size Bok 0 4096 4096
    { allocType := 1, locType := 1, locId := 0 } descOk rfl

/-- C3: a call with a misaligned offset exits fatally with the
alignment diagnostic, leaving the state unchanged and issuing no
backend call; and any call that returns ok had an aligned offset. -/
theorem map_offset_alignment (B : Backend) (st : CudaState)
    (reqId layer_idx : Int) (req_offset kptr vptr kp vp : Nat) :
    (req_offset % st.page_size ≠ 0 →
      map_cuda_pages B st reqId layer_idx req_offset kptr vptr kp vp =
        (Except.error Diag.misalignedOffset, st, [])) ∧
    (∀ st' tr,
      map_cuda_pages B st reqId layer_idx req_offset kptr vptr kp vp =
        (Except.ok (), st', tr) →
      req_offset % st.page_size = 0) := by
  constructor
  · intro hm
    simp [map_cuda_pages, hm]
  · intro st' tr h
    by_contra hne
    simp [map_cuda_pages, hne] at h

/-- Witness for C3: offset 1 is rejected before any backend call on a
4096-byte page size, and an accepted call (offset 0) is aligned. -/
theorem map_offset_alignment_witness :
    map_cuda_pages Bok stEx 7 0 1 4096 8192 11 22 =
      (Except.error Diag.misalignedOffset, stEx, []) ∧
    (0 : Nat) % stMapped.page_size = 0 :=
  ⟨(map_offset_alignment Bok stEx 7 0 1 4096 8192 11 22).1 (by decide),
   (map_offset_alignment Bok stMapped 7 0 0 4096 8192 11 22).2 stMapped [] rfl⟩

/-- C9: the four precondition checks run before the duplicate-entry
check, so a call whose key is already recorded but whose arguments
violate any precondition exits fatally instead of returning as a
no-op. -/
theorem map_checks_precede_duplicate (B : Backend) (st : CudaState)
    (reqId layer_idx : Int) (req_offset kptr vptr kp vp : Nat)
    (_hdup : (pmLookup st.cuda_pagemap (reqId, req_offset, layer_idx)).isSome)
    (hbad : ¬ validArgs st req_offset kptr vptr kp vp) :
    ∃ d, map_cuda_pages B st reqId layer_idx req_offset kptr vptr kp vp =
      (Except.error d, st, []) := by
  by_cases h1 : req_offset % st.page_size = 0
  · by_cases h2 : kp = 0 ∨ vp = 0
    · exact ⟨Diag.invalidHandle, by simp [map_cuda_pages, h1, h2]⟩
    · by_cases h3 : kptr = 0 ∨ vptr = 0
      · exact ⟨Diag.invalidVirtualPtr, by simp [map_cuda_pages, h1, h2, h3]⟩
      · by_cases h4 : st.accessDesc.locType ≠ CU_MEM_LOCATION_TYPE_DEVICE ∨
            st.accessDesc.flags ≠ CU_MEM_ACCESS_FLAGS_PROT_READWRITE
        · exact ⟨Diag.accessDescNotInit, by simp [map_cuda_pages, h1, h2, h3, h4]⟩
        · push_neg at h2 h3 h4
          exact absurd ⟨h1, h2.1, h2.2, h3.1, h3.2, h4.1, h4.2⟩ hbad
  · exact ⟨Diag.misalignedOffset, by simp [map_cuda_pages, h1]⟩

/-- Witness for C9: the key (7, 0, 0) is recorded in stMapped, yet a
repeat call passing the null handle kp = 0 dies on the handle check. -/
theorem map_checks_precede_duplicate_witness :
    ∃ d, map_cuda_pages Bok stMapped 7 0 0 4096 8192 0 22 =
      (Except.error d, stMapped, []) :=
  map_checks_precede_duplicate Bok stMapped 7 0 0 4096 8192 0 22
    (by decide) (by decide)

/-- A map_cuda_pages call that returns ok leaves its own key present in
the resulting mapping table (either it was already there, or the call
just recorded it). -/
theorem map_ok_key_recorded (B : Backend) (st : CudaState)
    (reqId layer_idx : Int) (req_offset kptr vptr kp vp : Nat)
    (st' : CudaState) (tr : List Event)
    (h : map_cuda_pages B st reqId layer_idx req_offset kptr vptr kp vp =
      (Except.ok (), st', tr)) :
    (pmLookup st'.cuda_pagemap (reqId, req_offset, layer_idx)).isSome := by
  simp only [map_cuda_pages] at h
  split at h
  · simp at h
  · split at h
    · simp at h
    · split at h
      · simp at h
      · split at h
        · simp at h
        · split at h
          · rename_i hfound
            simp only [Prod.mk.injEq] at h
            rw [← h.2.1]
            exact hfound
          · split at h
            · simp at h
            · split at h
              · simp at h
              · split at h
                · simp at h
                · split at h
                  · simp at h
                  · simp only [Prod.mk.injEq] at h
                    rw [← h.2.1]
                    simp [pmLookup]

/-- C1: if a map_cuda_pages call for some key returned ok, a second
call with the same key against the resulting state — with valid
arguments but possibly different page handles — returns ok immediately,
changes nothing and issues no backend call. -/
theorem map_idempotent (B : Backend) (st : CudaState)
    (reqId layer_idx : Int) (req_offset kptr vptr k1 v1 k2 v2 : Nat)
    (st' : CudaState) (tr : List Event)
    (h1 : map_cuda_pages B st reqId layer_idx req_offset kptr vptr k1 v1 =
      (Except.ok (), st', tr))
    (hv : validArgs st' req_offset kptr vptr k2 v2) :
    map_cuda_pages B st' reqId layer_idx req_offset kptr vptr k2 v2 =
      (Except.ok (), st', []) := by
  have hmem := map_ok_key_recorded B st reqId layer_idx req_offset kptr vptr k1 v1 st' tr h1
  obtain ⟨ha, hk2, hv2, hkp, hvp, hd1, hd2⟩ := hv
  simp [map_cuda_pages, ha, hk2, hv2, hkp, hvp, hd1, hd2, hmem]

/-- Witness for C1: a first successful bind of key (7, 0, 0) followed
by a repeat call with different page handles (33, 44) that is a pure
no-op on the resulting state. -/
theorem map_idempotent_witness :
    map_cuda_pages Bok stMapped 7 0 0 4096 8192 33 44 =
      (Except.ok (), stMapped, []) :=
  map_idempotent Bok stEx 7 0 0 4096 8192 11 22 33 44 stMapped
    [Event.memMap 4096 4096 11, Event.memMap 8192 4096 22,
     Event.setAccess 4096 4096, Event.setAccess 8192 4096]
    rfl (by decide)

/-- C2: on the first occurrence of a key with all preconditions
satisfied, if the two binds and the two permission grants succeed the
call issues exactly those four backend calls in order and records
key ↦ (kp, vp); if any of the four fails the call exits fatally. -/
theorem map_first_occurrence (B : Backend) (st : CudaState)
    (reqId layer_idx : Int) (req_offset kptr vptr kp vp : Nat)
    (hv : validArgs st req_offset kptr vptr kp vp)
    (hfresh : pmLookup st.cuda_pagemap (reqId, req_offset, layer_idx) = none) :
    (B.memMapRes (kptr + req_offset) st.page_size kp = CUDA_SUCCESS →
     B.memMapRes (vptr + req_offset) st.page_size vp = CUDA_SUCCESS →
     B.setAccessRes (kptr + req_offset) st.page_size = CUDA_SUCCESS →
     B.setAccessRes (vptr + req_offset) st.page_size = CUDA_SUCCESS →
     map_cuda_pages B st reqId layer_idx req_offset kptr vptr kp vp =
       (Except.ok (),
        { st with cuda_pagemap :=
            ((reqId, req_offset, layer_idx), (kp, vp)) :: st.cuda_pagemap },
        [Event.memMap (kptr + req_offset) st.page_size kp,
         Event.memMap (vptr + req_offset) st.page_size vp,
         Event.setAccess (kptr + req_offset) st.page_size,
         Event.setAccess (vptr + req_offset) st.page_size])) ∧
    (¬ (B.memMapRes (kptr + req_offset) st.page_size kp = CUDA_SUCCESS ∧
        B.memMapRes (vptr + req_offset) st.page_size vp = CUDA_SUCCESS ∧
        B.setAccessRes (kptr + req_offset) st.page_size = CUDA_SUCCESS ∧
        B.setAccessRes (vptr + req_offset) st.page_size = CUDA_SUCCESS) →
     ∃ d, (map_cuda_pages B st reqId layer_idx req_offset kptr vptr kp vp).1 =
       Except.error d) := by
  obtain ⟨ha, hk, hv2, hkp, hvp, hd1, hd2⟩ := hv
  constructor
  · intro e1 e2 e3 e4
    simp [map_cuda_pages, ha, hk, hv2, hkp, hvp, hd1, hd2, hfresh, e1, e2, e3, e4]
  · intro hfail
    by_cases e1 : B.memMapRes (kptr + req_offset) st.page_size kp = CUDA_SUCCESS
    · by_cases e2 : B.memMapRes (vptr + req_offset) st.page_size vp = CUDA_SUCCESS
      · by_cases e3 : B.setAccessRes (kptr + req_offset) st.page_size = CUDA_SUCCESS
        · by_cases e4 : B.setAccessRes (vptr + req_offset) st.page_size = CUDA_SUCCESS
          · exact absurd ⟨e1, e2, e3, e4⟩ hfail
          · exact ⟨Diag.setAccessVFailed,
              by simp [map_cuda_pages, ha, hk, hv2, hkp, hvp, hd1, hd2, hfresh, e1, e2, e3, e4]⟩
        · exact ⟨Diag.setAccessKFailed,
            by simp [map_cuda_pages, ha, hk, hv2, hkp, hvp, hd1, hd2, hfresh, e1, e2, e3]⟩
      · exact ⟨Diag.memMapVFailed,
          by simp [map_cuda_pages, ha, hk, hv2, hkp, hvp, hd1, hd2, hfresh, e1, e2]⟩
    · exact ⟨Diag.memMapKFailed,
        by simp [map_cuda_pages, ha, hk, hv2, hkp, hvp, hd1, hd2, hfresh, e1]⟩

/-- Witness for C2: binding key (7, 0, 0) into the empty table on the
always-succeeding backend issues bind-k, bind-v, grant-k, grant-v and
records the entry. -/
theorem map_first_occurrence_witness :
    map_cuda_pages Bok stEx 7 0 0 4096 8192 11 22 =
      (Except.ok (),
       { stEx with cuda_pagemap := [((7, 0, 0), (11, 22))] },
       [Event.memMap 4096 4096 11, Event.memMap 8192 4096 22,
        Event.setAccess 4096 4096, Event.setAccess 8192 4096]) :=
  (map_first_occurrence Bok stEx 7 0 0 4096 8192 11 22 (by decide) rfl).1
    rfl rfl rfl rfl

/-- The reserve loop, when every cuMemCreate succeeds: it appends
exactly target - |pages| fresh handles and issues exactly that many
create calls.  Proved by induction on the shortfall. -/
theorem growPages_ok (B : Backend) (ps : Nat)
    (hB : ∀ n, (B.memCreate n).isSome) (target : Nat) :
    ∀ n pages, target - pages.length = n →
      ∃ created,
        growPages B ps pages target =
          (Except.ok (pages ++ created),
           List.replicate (target - pages.length) (Event.create ps)) ∧
        created.length = target - pages.length := by
  intro n
  induction n with
  | zero =>
    intro pages h0
    have hnlt : ¬ pages.length < target := by omega
    rw [growPages]
    simp only [hnlt, dite_false]
    exact ⟨[], by simp [h0], by simp [h0]⟩
  | succ k ih =>
    intro pages hk
    have hlt : pages.length < target := by omega
    obtain ⟨hnd, hh⟩ := Option.isSome_iff_exists.mp (hB pages.length)
    obtain ⟨created, hc1, hc2⟩ := ih (pages ++ [hnd]) (by simp; omega)
    refine ⟨hnd :: created, ?_, ?_⟩
    · rw [growPages]
      simp only [hlt, dite_true, hh, hc1]
      rw [hk]
      have hlen : target - (pages ++ [hnd]).length = k := by simp; omega
      rw [hlen, List.replicate_succ]
      simp [List.append_assoc]
    · simp only [List.length_cons]
      simp only [List.length_append, List.length_cons, List.length_nil] at hc2
      omega

/-- C4: with a succeeding backend, reserve_cuda_pages keeps every
already-present handle, creates new handles one at a time exactly until
the pool reaches the sizing target, and returns the resulting pool
size, which is the maximum of the previous size and the target; when
the target is already met the created list and the trace are empty. -/
theorem reserve_pool_size (B : Backend) (sizing : Nat → Nat → Nat → Nat)
    (st : CudaState) (num_layers free_memory : Nat)
    (hB : ∀ n, (B.memCreate n).isSome) :
    ∃ created,
      reserve_cuda_pages B sizing st num_layers free_memory =
        (Except.ok (max st.cuda_pages.length (sizing num_layers free_memory st.page_size),
                    { st with cuda_pages := st.cuda_pages ++ created }),
         List.replicate
           (sizing num_layers free_memory st.page_size - st.cuda_pages.length)
           (Event.create st.page_size)) ∧
      created.length =
        sizing num_layers free_memory st.page_size - st.cuda_pages.length := by
  obtain ⟨created, hc1, hc2⟩ :=
    growPages_ok B st.page_size hB (sizing num_layers free_memory st.page_size)
      (sizing num_layers free_memory st.page_size - st.cuda_pages.length)
      st.cuda_pages rfl
  refine ⟨created, ?_, hc2⟩
  simp only [reserve_cuda_pages, hc1]
  have : (st.cuda_pages ++ created).length =
      max st.cuda_pages.length (sizing num_layers free_memory st.page_size) := by
    simp [hc2]
    omega
  rw [this]

/-- Witness for C4: stEx holds one page, the sizing target is 3, so two
creates are issued and the pool size becomes 3 = max 1 3. -/
theorem reserve_pool_size_witness :
    ∃ created,
      reserve_cuda_pages Bok (fun _ _ _ => 3) stEx 2 (64 * 1024 * 1024) =
        (Except.ok (max stEx.cuda_pages.length 3,
                    { stEx with cuda_pages := stEx.cuda_pages ++ created }),
         List.replicate (3 - stEx.cuda_pages.length) (Event.create stEx.page_size)) ∧
      created.length = 3 - stEx.cuda_pages.length :=
  reserve_pool_size Bok (fun _ _ _ => 3) stEx 2 (64 * 1024 * 1024)
    (fun n => by simp [Bok])

/-- Events that Teardown's unmap phase can produce. -/
def isUnmapPhaseEvent : Event → Bool
  | Event.unmap _ _ => true
  | Event.warn WarnKind.unmapEntry => true
  | _ => false

/-- Events that Teardown's virtual-range free phase can produce. -/
def isFreePhaseEvent : Event → Bool
  | Event.addressFree _ _ => true
  | Event.warn (WarnKind.freeK _) => true
  | Event.warn (WarnKind.freeV _) => true
  | _ => false

/-- Events that Teardown's handle release phase can produce. -/
def isReleasePhaseEvent : Event → Bool
  | Event.releaseHandle _ => true
  | Event.warn (WarnKind.releasePage _) => true
  | _ => false

theorem mem_unmapEntryEvents (B : Backend) (st : CudaState)
    (m : MapKey × PagePair) (e : Event) (he : e ∈ unmapEntryEvents B st m) :
    isUnmapPhaseEvent e = true := by
  unfold unmapEntryEvents at he
  dsimp only at he
  split at he
  · split at he
    · rcases List.mem_append.mp he with h | h
      · rcases List.mem_cons.mp h with h1 | h1
        · rw [h1]; rfl
        · rcases List.mem_cons.mp h1 with h2 | h2
          · rw [h2]; rfl
          · simp at h2
      · split at h
        · rcases List.mem_cons.mp h with h1 | h1
          · rw [h1]; rfl
          · simp at h1
        · simp at h
    · simp at he
  · simp at he

theorem mem_freeLayerEvents (B : Backend) (st : CudaState)
    (i : Nat) (e : Event) (he : e ∈ freeLayerEvents B st i) :
    isFreePhaseEvent e = true := by
  unfold freeLayerEvents at he
  dsimp only at he
  rcases List.mem_append.mp he with h | h
  · split at h
    · rcases List.mem_cons.mp h with h1 | h1
      · rw [h1]; rfl
      · split at h1
        · rcases List.mem_cons.mp h1 with h2 | h2
          · rw [h2]; rfl
          · simp at h2
        · simp at h1
    · simp at h
  · split at h
    · rcases List.mem_cons.mp h with h1 | h1
      · rw [h1]; rfl
      · split at h1
        · rcases List.mem_cons.mp h1 with h2 | h2
          · rw [h2]; rfl
          · simp at h2
        · simp at h1
    · simp at h

theorem mem_releasePageEvents (B : Backend) (i hnd : Nat) (e : Event)
    (he : e ∈ releasePageEvents B i hnd) :
    isReleasePhaseEvent e = true := by
  unfold releasePageEvents at he
  rcases List.mem_cons.mp he with h1 | h1
  · rw [h1]; rfl
  · split at h1
    · rcases List.mem_cons.mp h1 with h2 | h2
      · rw [h2]; rfl
      · simp at h2
    · simp at h1

/-- C6: Teardown's trace is exactly a full sweep of the mapping table
(only unmap-phase events), then a full sweep of the layers (only
virtual-range free events), then a full sweep of the pooled handles
(only release events), and the mapping table is cleared after the first
sweep, so no phase begins before the previous one has swept all its
items. -/
theorem cleanup_phase_order (B : Backend) (st : CudaState) :
    ∃ t1 t2 t3,
      (do_cuda_kvcache_cleanup B st).2 = t1 ++ t2 ++ t3 ∧
      t1 = st.cuda_pagemap.flatMap (unmapEntryEvents B st) ∧
      t2 = (List.range st.k_tensors.length).flatMap (freeLayerEvents B st) ∧
      t3 = st.cuda_pages.enum.flatMap (fun p => releasePageEvents B p.1 p.2) ∧
      (∀ e ∈ t1, isUnmapPhaseEvent e = true) ∧
      (∀ e ∈ t2, isFreePhaseEvent e = true) ∧
      (∀ e ∈ t3, isReleasePhaseEvent e = true) ∧
      (do_cuda_kvcache_cleanup B st).1.cuda_pagemap = [] := by
  refine ⟨_, _, _, rfl, rfl, rfl, rfl, ?_, ?_, ?_, rfl⟩
  · intro e he
    obtain ⟨m, _, hm⟩ := List.mem_flatMap.mp he
    exact mem_unmapEntryEvents B st m e hm
  · intro e he
    obtain ⟨i, _, hi⟩ := List.mem_flatMap.mp he
    exact mem_freeLayerEvents B st i e hi
  · intro e he
    obtain ⟨p, _, hp⟩ := List.mem_flatMap.mp he
    exact mem_releasePageEvents B p.1 p.2 e hp

/-- Witness for C6 at the concrete backend and state. -/
theorem cleanup_phase_order_witness :
    ∃ t1 t2 t3,
      (do_cuda_kvcache_cleanup Bok stMapped).2 = t1 ++ t2 ++ t3 ∧
      t1 = stMapped.cuda_pagemap.flatMap (unmapEntryEvents Bok stMapped) ∧
      t2 = (List.range stMapped.k_tensors.length).flatMap (freeLayerEvents Bok stMapped) ∧
      t3 = stMapped.cuda_pages.enum.flatMap (fun p => releasePageEvents Bok p.1 p.2) ∧
      (∀ e ∈ t1, isUnmapPhaseEvent e = true) ∧
      (∀ e ∈ t2, isFreePhaseEvent e = true) ∧
      (∀ e ∈ t3, isReleasePhaseEvent e = true) ∧
      (do_cuda_kvcache_cleanup Bok stMapped).1.cuda_pagemap = [] :=
  cleanup_phase_order Bok stMapped

/-- Backend calls of Teardown's unmap phase for one entry, with warning
lines removed: what the phase attempts, independent of failures. -/
def unmapAttempts (st : CudaState) (m : MapKey × PagePair) : List Event :=
  let req_offset := m.1.2.1
  let layer_idx := m.1.2.2
  if 0 ≤ layer_idx ∧ layer_idx.toNat < st.k_tensors.length then
    let kcache_ptr := st.k_tensors.getD layer_idx.toNat 0
    let vcache_ptr := st.v_tensors.getD layer_idx.toNat 0
    if kcache_ptr ≠ 0 ∧ vcache_ptr ≠ 0 then
      [Event.unmap (kcache_ptr + req_offset) st.page_size,
       Event.unmap (vcache_ptr + req_offset) st.page_size]
    else []
  else []

/-- Backend calls of Teardown's free phase for one layer, with warning
lines removed. -/
def freeAttempts (st : CudaState) (i : Nat) : List Event :=
  (if st.k_tensors.getD i 0 ≠ 0 then
    [Event.addressFree (st.k_tensors.getD i 0) st.virt_buff_size]
  else []) ++
  (if st.v_tensors.getD i 0 ≠ 0 then
    [Event.addressFree (st.v_tensors.getD i 0) st.virt_buff_size]
  else [])

theorem filter_unmapEntryEvents (B : Backend) (st : CudaState)
    (m : MapKey × PagePair) :
    (unmapEntryEvents B st m).filter (fun e => ! e.isWarn) = unmapAttempts st m := by
  unfold unmapEntryEvents unmapAttempts
  dsimp only
  split
  · split
    · split <;> simp [Event.isWarn, List.filter]
    · rfl
  · rfl

theorem filter_freeLayerEvents (B : Backend) (st : CudaState) (i : Nat) :
    (freeLayerEvents B st i).filter (fun e => ! e.isWarn) = freeAttempts st i := by
  unfold freeLayerEvents freeAttempts
  dsimp only
  rw [List.filter_append]
  congr 1
  · split
    · split <;> simp [Event.isWarn, List.filter]
    · rfl
  · split
    · split <;> simp [Event.isWarn, List.filter]
    · rfl

theorem filter_releasePageEvents (B : Backend) (i hnd : Nat) :
    (releasePageEvents B i hnd).filter (fun e => ! e.isWarn) =
      [Event.releaseHandle hnd] := by
  unfold releasePageEvents
  split <;> simp [Event.isWarn, List.filter]

/-- C7: the backend calls Teardown attempts — its trace with the
warning lines removed — are the full unmap sweep, the full per-layer
free sweep and the release of every pooled handle, for EVERY backend,
i.e. regardless of which calls fail; and Teardown always returns
normally with the table cleared and pool untouched, never terminating
the process. -/
theorem cleanup_attempts_all_items (B : Backend) (st : CudaState) :
    (do_cuda_kvcache_cleanup B st).2.filter (fun e => ! e.isWarn) =
      st.cuda_pagemap.flatMap (unmapAttempts st) ++
      (List.range st.k_tensors.length).flatMap (freeAttempts st) ++
      st.cuda_pages.map Event.releaseHandle ∧
    (do_cuda_kvcache_cleanup B st).1 = { st with cuda_pagemap := [] } := by
  constructor
  · show ((st.cuda_pagemap.flatMap (unmapEntryEvents B st) ++
      (List.range st.k_tensors.length).flatMap (freeLayerEvents B st) ++
      st.cuda_pages.enum.flatMap (fun p => releasePageEvents B p.1 p.2)).filter
        (fun e => ! e.isWarn)) = _
    rw [List.filter_append, List.filter_append,
        List.filter_flatMap, List.filter_flatMap, List.filter_flatMap]
    congr 1
    congr 1
    · exact List.flatMap_congr (fun m _ => filter_unmapEntryEvents B st m)
    · exact List.flatMap_congr (fun i _ => filter_freeLayerEvents B st i)
    · have h1 : ∀ p ∈ st.cuda_pages.enum,
          (releasePageEvents B p.1 p.2).filter (fun e => ! e.isWarn) =
            [Event.releaseHandle p.2] :=
        fun p _ => filter_releasePageEvents B p.1 p.2
      rw [List.flatMap_congr h1]
      have h2 : st.cuda_pages.enum.flatMap (fun p => [Event.releaseHandle p.2]) =
          st.cuda_pages.enum.map (fun p => Event.releaseHandle p.2) := by
        induction st.cuda_pages.enum with
        | nil => rfl
        | cons a t ih => simp [List.flatMap_cons, ih]
      rw [h2]
      have h3 : st.cuda_pages.enum.map (fun p => Event.releaseHandle p.2) =
          (st.cuda_pages.enum.map Prod.snd).map Event.releaseHandle := by
        rw [List.map_map]; rfl
      rw [h3, List.enum_map_snd]
  · rfl

/-- Witness for C7 on a backend that fails every unmap, free and
release call: the attempted calls and the final state are unchanged. -/
theorem cleanup_attempts_all_items_witness :
    (do_cuda_kvcache_cleanup
        { Bok with unmapRes := fun _ _ => 1, addressFreeRes := fun _ _ => 1,
                   releaseRes := fun _ => 1 } stMapped).2.filter
      (fun e => ! e.isWarn) =
      stMapped.cuda_pagemap.flatMap (unmapAttempts stMapped) ++
      (List.range stMapped.k_tensors.length).flatMap (freeAttempts stMapped) ++
      stMapped.cuda_pages.map Event.releaseHandle ∧
    (do_cuda_kvcache_cleanup
        { Bok with unmapRes := fun _ _ => 1, addressFreeRes := fun _ _ => 1,
                   releaseRes := fun _ => 1 } stMapped).1 =
      { stMapped with cuda_pagemap := [] } :=
  cleanup_attempts_all_items
    { Bok with unmapRes := fun _ _ => 1, addressFreeRes := fun _ _ => 1,
               releaseRes := fun _ => 1 } stMapped

/-- C10: a mapping entry whose layer index fails the bound check
against the layer tensors (including negative indices, which the
source's int-vs-unsigned comparison also rejects), or whose resolved
key or value base pointer is null, contributes no unmap call and no
warning to Teardown's first phase, yet the table is still left empty
after the phase's clear. -/
theorem cleanup_skips_silently (B : Backend) (st : CudaState)
    (m : MapKey × PagePair) (_hm : m ∈ st.cuda_pagemap)
    (hskip : ¬ (0 ≤ m.1.2.2 ∧ m.1.2.2.toNat < st.k_tensors.length) ∨
      st.k_tensors.getD m.1.2.2.toNat 0 = 0 ∨
      st.v_tensors.getD m.1.2.2.toNat 0 = 0) :
    unmapEntryEvents B st m = [] ∧
    (do_cuda_kvcache_cleanup B st).1.cuda_pagemap = [] := by
  refine ⟨?_, rfl⟩
  unfold unmapEntryEvents
  dsimp only
  rcases hskip with h | h | h
  · simp [h]
  · split
    · split
      · rename_i hnz
        exact absurd h hnz.1
      · rfl
    · rfl
  · split
    · split
      · rename_i hnz
        exact absurd h hnz.2
      · rfl
    · rfl

/-- Witness for C10: an entry recorded under layer index 5 while only
one layer tensor exists is skipped, and the table still ends empty. -/
theorem cleanup_skips_silently_witness :
    unmapEntryEvents Bok { stEx with cuda_pagemap := [((7, 0, 5), (11, 22))] }
      ((7, 0, 5), (11, 22)) = [] ∧
    (do_cuda_kvcache_cleanup Bok
      { stEx with cuda_pagemap := [((7, 0, 5), (11, 22))] }).1.cuda_pagemap = [] :=
  cleanup_skips_silently Bok { stEx with cuda_pagemap := [((7, 0, 5), (11, 22))] }
    ((7, 0, 5), (11, 22)) (by simp) (by decide)

theorem pmLookup_of_mem_nodup (l : List (MapKey × PagePair)) (k : MapKey)
    (v : PagePair) (hnd : (l.map Prod.fst).Nodup) (hmem : (k, v) ∈ l) :
    pmLookup l k = some v := by
  induction l with
  | nil => simp at hmem
  | cons a t ih =>
    obtain ⟨k0, v0⟩ := a
    have hnd' := List.nodup_cons.mp (show (k0 :: t.map Prod.fst).Nodup from hnd)
    rcases List.mem_cons.mp hmem with h | h
    · rw [show k0 = k from (Prod.mk.injEq _ _ _ _ ▸ h.symm).1,
          show v0 = v from (Prod.mk.injEq _ _ _ _ ▸ h.symm).2]
      simp [pmLookup]
    · have hk : k ∈ t.map Prod.fst := List.mem_map.mpr ⟨(k, v), h, rfl⟩
      have hne : ¬ k0 = k := fun he => hnd'.1 (he ▸ hk)
      simp only [pmLookup, hne, if_false]
      exact ih hnd'.2 h

theorem pmLookup_append_some (l1 l2 : List (MapKey × PagePair)) (k : MapKey)
    (v : PagePair) (h : pmLookup l1 k = some v) :
    pmLookup (l1 ++ l2) k = some v := by
  induction l1 with
  | nil => simp [pmLookup] at h
  | cons a t ih =>
    obtain ⟨k0, v0⟩ := a
    rw [List.cons_append]
    by_cases he : k0 = k
    · simp only [pmLookup, he, if_true] at h ⊢
      exact h
    · simp only [pmLookup, he, if_false] at h ⊢
      exact ih h

/-- Running a batch of map_cuda_pages calls with pairwise-distinct,
fresh keys and valid arguments on a backend whose binds succeed:
every call takes the first-occurrence path, the run returns ok, the
table gains the batch's entries, and the trace holds the four backend
calls of each call. -/
theorem runCalls_fresh_distinct (B : Backend) (hB : bindsAlwaysSucceed B) :
    ∀ cs st,
      (∀ c ∈ cs, validArgs st c.req_offset c.kcache_ptr c.vcache_ptr c.k_page c.v_page) →
      ((cs.map callKey).Nodup) →
      (∀ c ∈ cs, pmLookup st.cuda_pagemap (callKey c) = none) →
      ∃ tr, runCalls B st cs =
        (Except.ok (),
         { st with cuda_pagemap := (cs.map entryOf).reverse ++ st.cuda_pagemap },
         tr) ∧
        tr.length = 4 * cs.length := by
  intro cs
  induction cs with
  | nil =>
    intro st _ _ _
    exact ⟨[], rfl, rfl⟩
  | cons c cs ih =>
    intro st hv hnodup hfresh
    obtain ⟨ha, hk, hv2, hkp, hvp, hd1, hd2⟩ := hv c (List.mem_cons_self c cs)
    have hf : pmLookup st.cuda_pagemap (c.reqId, c.req_offset, c.layer_idx) = none :=
      hfresh c (List.mem_cons_self c cs)
    have hstep : map_cuda_pages B st c.reqId c.layer_idx c.req_offset
        c.kcache_ptr c.vcache_ptr c.k_page c.v_page =
        (Except.ok (),
         { st with cuda_pagemap := entryOf c :: st.cuda_pagemap },
         [Event.memMap (c.kcache_ptr + c.req_offset) st.page_size c.k_page,
          Event.memMap (c.vcache_ptr + c.req_offset) st.page_size c.v_page,
          Event.setAccess (c.kcache_ptr + c.req_offset) st.page_size,
          Event.setAccess (c.vcache_ptr + c.req_offset) st.page_size]) := by
      simp [map_cuda_pages, entryOf, callKey, ha, hk, hv2, hkp, hvp, hd1, hd2,
            hf, hB.1, hB.2]
    have hkeyne : callKey c ∉ cs.map callKey := (List.nodup_cons.mp hnodup).1
    obtain ⟨tr, htr, hlen⟩ :=
      ih { st with cuda_pagemap := entryOf c :: st.cuda_pagemap }
        (fun c' hc' => hv c' (List.mem_cons_of_mem c hc'))
        (List.nodup_cons.mp hnodup).2
        (fun c' hc' => by
          have hne : ¬ callKey c = callKey c' := fun he =>
            hkeyne (he ▸ List.mem_map.mpr ⟨c', hc', rfl⟩)
          simp only [entryOf, pmLookup, hne, if_false]
          exact hfresh c' (List.mem_cons_of_mem c hc'))
    refine ⟨[Event.memMap (c.kcache_ptr + c.req_offset) st.page_size c.k_page,
             Event.memMap (c.vcache_ptr + c.req_offset) st.page_size c.v_page,
             Event.setAccess (c.kcache_ptr + c.req_offset) st.page_size,
             Event.setAccess (c.vcache_ptr + c.req_offset) st.page_size] ++ tr,
        ?_, ?_⟩
    · simp only [runCalls, hstep, htr]
      simp [List.reverse_cons, List.append_assoc]
    · simp only [List.length_append, List.length_cons, List.length_nil, hlen]
      omega

/-- C8: the whole map_cuda_pages body runs under one lock on the
mapping table, so a concurrent execution of N calls is observationally
some serial order of the N atomic calls.  For every such order
(permutation) of N valid calls with pairwise-distinct keys not yet in
the table, on a backend whose binds and grants succeed, the run
returns ok, the table gains exactly N entries, each key holds exactly
the page pair its call supplied, and the trace holds exactly the four
backend calls (two binds, two grants) of each call: one underlying
bind sequence per key, under any interleaving. -/
theorem map_concurrent_distinct_keys (B : Backend) (st : CudaState)
    (cs : List MapCall)
    (hB : bindsAlwaysSucceed B)
    (hv : ∀ c ∈ cs, validArgs st c.req_offset c.kcache_ptr c.vcache_ptr c.k_page c.v_page)
    (hnodup : (cs.map callKey).Nodup)
    (hfresh : ∀ c ∈ cs, pmLookup st.cuda_pagemap (callKey c) = none) :
    ∀ cs', cs'.Perm cs →
      ∃ st' tr, runCalls B st cs' = (Except.ok (), st', tr) ∧
        st'.cuda_pagemap.length = cs.length + st.cuda_pagemap.length ∧
        (∀ c ∈ cs, pmLookup st'.cuda_pagemap (callKey c) = some (c.k_page, c.v_page)) ∧
        tr.length = 4 * cs.length := by
  intro cs' hperm
  have hnodup' : (cs'.map callKey).Nodup :=
    ((hperm.map callKey).nodup_iff).mpr hnodup
  obtain ⟨tr, htr, hlen⟩ := runCalls_fresh_distinct B hB cs' st
    (fun c hc => hv c (hperm.subset hc))
    hnodup'
    (fun c hc => hfresh c (hperm.subset hc))
  refine ⟨_, tr, htr, ?_, ?_, ?_⟩
  · simp [hperm.length_eq]
  · intro c hc
    have hc' : c ∈ cs' := hperm.mem_iff.mpr hc
    have hmem : (callKey c, (c.k_page, c.v_page)) ∈ (cs'.map entryOf).reverse := by
      rw [List.mem_reverse]
      exact List.mem_map.mpr ⟨c, hc', rfl⟩
    have hkeys : ((cs'.map entryOf).reverse.map Prod.fst).Nodup := by
      rw [List.map_reverse, List.nodup_reverse, List.map_map]
      exact hnodup'
    exact pmLookup_append_some _ _ _ _
      (pmLookup_of_mem_nodup _ _ _ hkeys hmem)
  · rw [hlen, hperm.length_eq]

/-- Two distinct-key calls for the witness: same request, layer 0, at
offsets 0 and 4096. -/
def c1ex : MapCall :=
  { reqId := 7, layer_idx := 0, req_offset := 0, kcache_ptr := 4096,
    vcache_ptr := 8192, k_page := 11, v_page := 22 }

def c2ex : MapCall :=
  { reqId := 7, layer_idx := 0, req_offset := 4096, kcache_ptr := 4096,
    vcache_ptr := 8192, k_page := 12, v_page := 23 }

/-- Witness for C8: the reversed order of the two calls still yields
both entries, each bound once, with an 8-event trace. -/
theorem map_concurrent_distinct_keys_witness :
    ∃ st' tr, runCalls Bok stEx [c2ex, c1ex] = (Except.ok (), st', tr) ∧
      st'.cuda_pagemap.length = [c1ex, c2ex].length + stEx.cuda_pagemap.length ∧
      (∀ c ∈ [c1ex, c2ex],
        pmLookup st'.cuda_pagemap (callKey c) = some (c.k_page, c.v_page)) ∧
      tr.length = 4 * [c1ex, c2ex].length :=
  map_concurrent_distinct_keys Bok stEx [c1ex, c2ex]
    ⟨fun _ _ _ => rfl, fun _ _ => rfl⟩
    (by decide) (by decide) (by decide)
    [c2ex, c1ex] (by decide)

end VAttention
